import Mathlib

/-!
Shallow embedding of the core of `llm_xml_caster` (a Rust library that decodes
LLM-produced XML into typed values), together with theorems settling the
specification claims about it.

The embedding covers:
* the payload-extraction and retry loop of `src/bind.rs`
  (`generate_as_with_retries`);
* the boolean coercion of `src/type/bool.rs` (`custom_bool_parser`);
* the optional-value parsers: the fallback `OptionParser::custom_option_parser`
  of `src/type/option.rs` and the macro-generated lenient wrapper of
  `helper/src/lib.rs` (the `"Option"` branch of `get_custom_parser`);
* the sequence parser `VecParser::custom_vector_parser` of `src/type/vector.rs`;
* the map parsers of `src/type/hashmap.rs` and `src/type/btreemap.rs`;
* the memoization cells of `src/type/mod.rs` (`OnceLock` slots inside
  `CacheInner`);
* the root-name conventions generated by the `llm_prompt` macro of
  `helper/src/lib.rs` (struct name for structs, empty string for enums).

Rust strings are modelled as Lean `String`s; byte indices of occurrences are
modelled as character indices (all inputs of interest are treated at the
granularity of characters, consistently for searching and slicing).
External collaborators (the `genai` chat client and the `quick_xml` serde
deserializer for the inner types) are modelled as function parameters.
-/

namespace LlmXmlCaster

/-! ### Substring search: model of Rust `str::find` / `str::rfind` -/

/-- Least index `≥ i` in `s ++ (dropped prefix)` at which `pat` starts,
scanning left to right: model of `str::find` (index offset by `i`). -/
def findSubFrom (pat : List Char) : List Char → Nat → Option Nat
  | [], i => if pat.isPrefixOf ([] : List Char) then some i else none
  | s@(_ :: t), i => if pat.isPrefixOf s then some i else findSubFrom pat t (i + 1)

/-- Model of Rust `str::find`: index of the first occurrence of `pat` in `s`. -/
def findSub (pat s : List Char) : Option Nat :=
  findSubFrom pat s 0

/-- Model of Rust `str::rfind`: index of the start of the last occurrence of
`pat` in `s` (the largest index at which `pat` is a prefix of the rest). -/
def rfindSub (pat s : List Char) : Option Nat :=
  ((List.range (s.length + 1)).filter fun i => pat.isPrefixOf (s.drop i)).max?

/-- `str::find` on `String`s. -/
def strFind (pat s : String) : Option Nat :=
  findSub pat.data s.data

/-- `str::rfind` on `String`s. -/
def strRFind (pat s : String) : Option Nat :=
  rfindSub pat.data s.data

/-- Model of the Rust slice `&s[a..b]` (at character granularity). -/
def strSlice (s : String) (a b : Nat) : String :=
  String.mk ((s.data.drop a).take (b - a))

/-! ### Payload extraction (`src/bind.rs`, lines 66–103)

`generate_as_with_retries` computes `start_tag = format!("<{}>", root_name)`,
`end_tag = format!("</{}>", root_name)`, then
`text.find(&start_tag)` and `text.rfind(&end_tag)`; if both are found it
slices `&text[xml_start..xml_end]` with
`xml_end = xml_end_tag_start + end_tag.len()`.  A Rust slice whose start
exceeds its end panics; `StepResult.panic` records exactly that case. -/

/-- `format!("<{}>", root_name)` from `src/bind.rs` line 67. -/
def startTagOf (root : String) : String := "<" ++ root ++ ">"

/-- `format!("</{}>", root_name)` from `src/bind.rs` line 68. -/
def endTagOf (root : String) : String := "</" ++ root ++ ">"

/-- Result of one extraction attempt on a non-empty response text. -/
inductive StepResult where
  | missing
  | panic
  | payload (content : String)
deriving DecidableEq, Repr

/-- Boundary search and slice of `src/bind.rs` lines 73–77 and 92–103, for
given start/end tags: first occurrence of the start tag, last occurrence of
the end tag, inclusive slice; a slice with start index past the end index is
a Rust panic. -/
def extractWithTags (startTag endTag text : String) : StepResult :=
  match strFind startTag text, strRFind endTag text with
  | some s, some e0 =>
      let e := e0 + endTag.length
      if s ≤ e then StepResult.payload (strSlice text s e) else StepResult.panic
  | _, _ => StepResult.missing

/-- The extraction step of `src/bind.rs` lines 66–77 for root tag `root`. -/
def extractStep (root text : String) : StepResult :=
  extractWithTags (startTagOf root) (endTagOf root) text

/-! ### The retry loop (`src/bind.rs`, `generate_as_with_retries`)

The chat conversation is a list of role-tagged messages; `exec_chat` (the
`genai` client) is modelled as a function from the attempt index to a send
result (one send per loop iteration), and `quick_xml::de::from_str::<T>` as a
function `String → Except String T`. -/

/-- Chat message role (`genai::chat::ChatMessage` constructors used). -/
inductive Role where
  | system
  | user
  | assistant
deriving DecidableEq, Repr

/-- A chat message. -/
structure Msg where
  role : Role
  content : String
deriving DecidableEq, Repr

/-- The error taxonomy of `src/error.rs` (`RequestError`) restricted to the
variants recorded inside the loop (`errs.push(...)` sites). -/
inductive GenError where
  | xmlDeserialization (e : String)
  | xmlExtraction (msg : String)
deriving DecidableEq, Repr

/-- Result of one `client.exec_chat` call: a transport error (propagated by
`?` as `RequestError::ChatRequest`), or a reply whose `first_text()` is
`none` or `some text`. -/
inductive SendResult where
  | transportErr (e : String)
  | reply (text : Option String)
deriving DecidableEq, Repr

/-- Terminal outcome of `generate_as_with_retries`. -/
inductive GenOutcome (T : Type) where
  | ok (v : T)
  | chatRequestErr (e : String)
  | retryLimitExceeded (errs : List GenError)
  | panicked
deriving DecidableEq, Repr

/-- Outcome together with the final conversation and the number of
`exec_chat` calls performed. -/
structure LoopResult (T : Type) where
  outcome : GenOutcome T
  chat : List Msg
  sends : Nat
deriving DecidableEq, Repr

/-- The initial system message of `src/bind.rs` lines 54–56. -/
def sysMsgContent (root schema : String) : String :=
  "You must respond with a valid XML document(root name is " ++ root ++
    ") that adheres to the following schema: " ++ schema

/-- The decode-failure diagnostic message of `src/bind.rs` lines 81–83. -/
def decodeDiagContent (xml err schema : String) : String :=
  "The last time you responded, the XML content was: " ++ xml ++
    "\nThe error was: " ++ err ++
    "\nPlease ensure your response strictly follows the required XML format." ++
    "\nThe format body is: " ++ schema

/-- The valid-example message of `src/bind.rs` lines 84–87 and 98–101. -/
def exampleMsgContent (ex : String) : String :=
  "Here is a valid example for your reference:\n" ++ ex

/-- The missing-root-tag diagnostic message of `src/bind.rs` line 97. -/
def structDiagContent (root schema : String) : String :=
  "The error was: cannot find the root " ++ root ++ " of the structure" ++
    "\nPlease ensure your response strictly follows the required XML format." ++
    "\n The format body is: " ++ schema

/-- The `Error::XmlExtraction` payload of `src/bind.rs` lines 93–96. -/
def extractionErrMsg (root : String) : String :=
  "cannot find the root " ++ root ++ " of the structure"

variable {T : Type}

/-- The `for _attempt in 1..=retries` loop of `src/bind.rs` lines 61–107:
`i` is the index of the next attempt (indexing `send`), the second argument
the number of remaining attempts, then the current conversation, the
accumulated error vector, and the number of sends performed so far. -/
def runAttempts (dec : String → Except String T) (root schema ex : String)
    (send : Nat → SendResult) :
    Nat → Nat → List Msg → List GenError → Nat → LoopResult T
  | _, 0, chat, errs, sends => ⟨GenOutcome.retryLimitExceeded errs, chat, sends⟩
  | i, rem + 1, chat, errs, sends =>
    match send i with
    | SendResult.transportErr e => ⟨GenOutcome.chatRequestErr e, chat, sends + 1⟩
    | SendResult.reply none =>
        runAttempts dec root schema ex send (i + 1) rem chat errs (sends + 1)
    | SendResult.reply (some text) =>
      match extractStep root text with
      | StepResult.panic => ⟨GenOutcome.panicked, chat, sends + 1⟩
      | StepResult.missing =>
          runAttempts dec root schema ex send (i + 1) rem
            (chat ++ [⟨Role.assistant, structDiagContent root schema⟩,
                      ⟨Role.assistant, exampleMsgContent ex⟩])
            (errs ++ [GenError.xmlExtraction (extractionErrMsg root)]) (sends + 1)
      | StepResult.payload p =>
        match dec p with
        | Except.ok v => ⟨GenOutcome.ok v, chat, sends + 1⟩
        | Except.error e =>
            runAttempts dec root schema ex send (i + 1) rem
              (chat ++ [⟨Role.assistant, decodeDiagContent p e schema⟩,
                        ⟨Role.assistant, exampleMsgContent ex⟩])
              (errs ++ [GenError.xmlDeserialization e]) (sends + 1)

/-- `generate_as_with_retries` of `src/bind.rs`: appends the system message to
the caller's prompt and runs `retries` attempts. -/
def generate_as_with_retries (dec : String → Except String T)
    (root schema ex : String) (send : Nat → SendResult)
    (prompt : List Msg) (retries : Nat) : LoopResult T :=
  runAttempts dec root schema ex send 0 retries
    (prompt ++ [⟨Role.system, sysMsgContent root schema⟩]) [] 0

/-- The error recorded by one loop iteration, if any: `none` for a transport
error (the loop aborts), an empty reply (skipped), a panic, or a decode
success; otherwise the pushed `Error` value. -/
def stepErrorOf (dec : String → Except String T) (root : String) :
    SendResult → Option GenError
  | SendResult.transportErr _ => none
  | SendResult.reply none => none
  | SendResult.reply (some text) =>
    match extractStep root text with
    | StepResult.panic => none
    | StepResult.missing => some (GenError.xmlExtraction (extractionErrMsg root))
    | StepResult.payload p =>
      match dec p with
      | Except.ok _ => none
      | Except.error e => some (GenError.xmlDeserialization e)

/-! ### Boolean coercion (`src/type/bool.rs`, `custom_bool_parser`)

The Rust function deserializes a string token, computes
`s.trim().to_lowercase()`, and matches it against two fixed word buckets. -/

/-- ASCII whitespace (the whitespace characters relevant to the tokens at
hand; Rust `char::is_whitespace` extends this to other Unicode whitespace). -/
def isWhitespaceChar (c : Char) : Bool :=
  c == ' ' || c == '\t' || c == '\n' || c == '\r'

/-- Rust `str::trim`: strip leading and trailing whitespace. -/
def trimChars (s : List Char) : List Char :=
  ((s.dropWhile isWhitespaceChar).reverse.dropWhile isWhitespaceChar).reverse

/-- Rust `s.trim().to_lowercase()` (per-character lowercase; the CJK
characters in the buckets have no case and are unchanged). -/
def rustTrimLower (s : String) : String :=
  String.mk ((trimChars s.data).map Char.toLower)

/-- `custom_bool_parser` of `src/type/bool.rs` lines 4–22; the alternatives
of the two `match` arms are rendered as disjunction chains. -/
def customBoolParser (s : String) : Except String Bool :=
  let c := rustTrimLower s
  if c = "true" ∨ c = "1" ∨ c = "yes" ∨ c = "y" ∨ c = "t" ∨ c = "on" ∨
      c = "真" ∨ c = "checked" ∨ c = "selected" then
    Except.ok true
  else if c = "false" ∨ c = "0" ∨ c = "no" ∨ c = "n" ∨ c = "f" ∨ c = "off" ∨
      c = "假" ∨ c = "null" ∨ c = "none" ∨ c = "" then
    Except.ok false
  else
    Except.error ("can not parse '" ++ c ++ "' as a boolean value")

/-- The true-bucket of `src/type/bool.rs` line 13. -/
def trueBucket : List String :=
  ["true", "1", "yes", "y", "t", "on", "真", "checked", "selected"]

/-- The false-bucket of `src/type/bool.rs` line 15. -/
def falseBucket : List String :=
  ["false", "0", "no", "n", "f", "off", "假", "null", "none", ""]

/-! ### Optional values

Two distinct code paths decode an `Option<T>` field.

* When the inner type `T` has a registered custom parser, the `llm_prompt`
  macro generates a wrapper (`helper/src/lib.rs` lines 311–325) that decodes
  the present tag's content with that parser and maps **any** failure to
  `Ok(None)`.
* Otherwise the field is decoded through
  `OptionParser::custom_option_parser` (`src/type/option.rs` lines 13–24),
  which decodes the transparent `XmlOption<T>` wrapper — on a present tag
  this decodes the content as `T` — and maps a failure to a **decode error**
  with a fixed message prefix.

Both are modelled for the present-tag case; the serde deserializer for the
inner content is the function parameter `innerDec` and `R` is the type of
raw (undecoded) content. -/

/-- The macro-generated `OptionWrapper` function of `helper/src/lib.rs`
lines 311–325: `Ok(w) => Ok(Some(w.0)), Err(_) => Ok(None)`. -/
def optionWrapperParser {R α : Type} (innerDec : R → Except String α)
    (doc : R) : Except String (Option α) :=
  match innerDec doc with
  | Except.ok v => Except.ok (some v)
  | Except.error _ => Except.ok none

/-- `OptionParser::custom_option_parser` of `src/type/option.rs` lines 13–24,
on a present tag: `XmlOption<T>` is `#[serde(transparent)]` around
`Option<T>`, so a present tag decodes its content as `T` (mapped to `Some`);
a failure becomes a custom error with the fixed prefix. -/
def customOptionParser {R α : Type} (innerDec : R → Except String α)
    (doc : R) : Except String (Option α) :=
  match (innerDec doc).map some with
  | Except.ok w => Except.ok w
  | Except.error e =>
      Except.error ("The XML structure is invalid. Reason: " ++ e)

/-! ### Sequences (`src/type/vector.rs`, `VecParser::custom_vector_parser`)

`XmlSeq<T>` is `#[serde(deny_unknown_fields)]` with a single field
`item: Vec<ItemWrapper<T>>` (defaulting to empty).  The serde map access of
`quick_xml` presents the element children of the sequence tag in document
order as (field-name, content) pairs; the derived `Deserialize` collects the
`"item"` entries in order and, because of `deny_unknown_fields`, rejects any
other field name.  The inner `T` deserializer is the parameter `dec`. -/

/-- Decoding of `XmlSeq<T>` over the children of the sequence tag in document
order. -/
def decodeXmlSeq {R α : Type} (dec : R → Except String α) :
    List (String × R) → Except String (List α)
  | [] => Except.ok []
  | (tag, raw) :: rest =>
    if tag = "item" then
      match dec raw with
      | Except.ok v => (decodeXmlSeq dec rest).map (fun vs => v :: vs)
      | Except.error e => Except.error e
    else
      Except.error ("unknown field `" ++ tag ++ "`")

/-- `VecParser::custom_vector_parser` of `src/type/vector.rs` lines 13–35:
wraps an `XmlSeq` failure in the fixed diagnostic prefix. -/
def customVectorParser {R α : Type} (dec : R → Except String α)
    (children : List (String × R)) : Except String (List α) :=
  match decodeXmlSeq dec children with
  | Except.ok items => Except.ok items
  | Except.error e =>
      Except.error
        ("The XML structure is invalid. It must be a sequence of <item> elements, each containing the value. Details: "
          ++ e)

/-! ### Maps (`src/type/hashmap.rs` and `src/type/btreemap.rs`)

`XmlMap<K,V>` holds `entries: Vec<Entry<K,V>>` (defaulting to empty, no
`deny_unknown_fields`); each entry carries one key and one value, decoded by
`K`'s and `V`'s deserializers, and the entry vector is `collect`ed into the
map, so a duplicate key keeps the value of the **last** entry inserted.
The map built by `collect()` is modelled extensionally as its lookup
function. -/

/-- Decoding of the entry vector: each raw (key, value) pair is decoded with
the key and value deserializers, in document order; the first failure aborts. -/
def decodeEntries {R κ ν : Type} (decK : R → Except String κ)
    (decV : R → Except String ν) :
    List (R × R) → Except String (List (κ × ν))
  | [] => Except.ok []
  | (kr, vr) :: rest =>
    match decK kr with
    | Except.error e => Except.error e
    | Except.ok k =>
      match decV vr with
      | Except.error e => Except.error e
      | Except.ok v => (decodeEntries decK decV rest).map (fun l => (k, v) :: l)

/-- The lookup function of the map obtained by inserting the pairs of `l` in
order (later inserts overwrite): the model of `collect::<HashMap<_,_>>()`
and `collect::<BTreeMap<_,_>>()`. -/
def lookupLW {κ ν : Type} [DecidableEq κ] (l : List (κ × ν)) (k : κ) :
    Option ν :=
  l.foldl (fun acc p => if p.1 = k then some p.2 else acc) none

/-- `HashMapParser::custom_hashmap_parser` of `src/type/hashmap.rs`
lines 35–53, with the resulting map viewed extensionally. -/
def customHashmapParser {R κ ν : Type} [DecidableEq κ]
    (decK : R → Except String κ) (decV : R → Except String ν)
    (entries : List (R × R)) : Except String (κ → Option ν) :=
  match decodeEntries decK decV entries with
  | Except.ok l => Except.ok (lookupLW l)
  | Except.error e =>
      Except.error
        ("The XML structure is invalid. The sequence must consist of <entry> elements, each containing a <key> and a <value>. Details: "
          ++ e)

/-- `BTreeMapParser::custom_btreemap_parser` of `src/type/btreemap.rs`
lines 28–46 (identical structure, `BTreeMap` collect). -/
def customBtreemapParser {R κ ν : Type} [DecidableEq κ]
    (decK : R → Except String κ) (decV : R → Except String ν)
    (entries : List (R × R)) : Except String (κ → Option ν) :=
  match decodeEntries decK decV entries with
  | Except.ok l => Except.ok (lookupLW l)
  | Except.error e =>
      Except.error
        ("The XML structure is invalid. The sequence must consist of <entry> elements, each containing a <key> and a <value>. Details: "
          ++ e)

/-! ### Memoization (`src/type/mod.rs`, `CacheInner` / `OnceLock`)

Each cache slot is a `std::sync::OnceLock<String>`; `get_or_init(f)` runs
`f` and publishes its value if the cell is empty, and otherwise returns the
already-published value without calling `f`.  `OnceLock` linearizes
initialization, so any concurrent execution of `get_or_init` calls is
observationally a sequence of the atomic steps modelled here; a slot state is
`Option String` (`none` = uninitialized). -/

/-- One atomic `OnceLock::get_or_init` step: the returned value, the new slot
state, and whether the compute closure was run. -/
def get_or_init (slot : Option String) (compute : Unit → String) :
    String × Option String × Bool :=
  match slot with
  | some v => (v, some v, false)
  | none => (compute (), some (compute ()), true)

/-- A sequence of `n` `get_or_init` calls on one slot: the list of returned
values, the final slot state, and the number of times the compute closure
was run. -/
def runGetOrInit (compute : Unit → String) :
    Nat → Option String → List String × Option String × Nat
  | 0, slot => ([], slot, 0)
  | n + 1, slot =>
    let r := get_or_init slot compute
    let rest := runGetOrInit compute n r.2.1
    (r.1 :: rest.1, rest.2.1, (if r.2.2 then 1 else 0) + rest.2.2)

/-- The compute closure of `impl LlmPrompt for Vec<T>`'s `get_prompt_schema`
(`src/type/vector.rs` lines 39–46), given the inner type's schema text. -/
def vecPromptSchemaCompute (subSchema : String) : Unit → String :=
  fun _ =>
    "A series(0 or more elements) of items where each item has the following format:<item>"
      ++ subSchema ++
      "</item>\nNOTICE: Even a single item must be enclosed within <item></item> tags."

/-! ### Macro-generated root names (`helper/src/lib.rs`, `llm_prompt`)

For a struct the generated `root_name()` returns the item's name
(line 58); for an enum it returns the empty string (line 127). -/

/-- The kind of item the `llm_prompt` attribute macro is applied to. -/
inductive ItemKind where
  | structItem (name : String)
  | enumItem (name : String)
deriving DecidableEq, Repr

/-- The `root_name()` body generated by `llm_prompt`
(`helper/src/lib.rs` lines 58 and 127). -/
def macro_root_name : ItemKind → String
  | ItemKind.structItem n => n
  | ItemKind.enumItem _ => ""

/-! ## Theorems settling the claims -/

/-- **C1, counterexample.** The claim — decoding a present optional tag whose
inner content fails always yields `None` and never an error — is false for
the fallback path `OptionParser::custom_option_parser` (used when the inner
type has no registered custom parser): there an inner failure surfaces as a
decode error, shown here at the concrete inner failure message `"bad"`. -/
theorem claim_C1_counterexample :
    ¬ ((∀ (innerDec : String → Except String Nat) (doc e : String),
          innerDec doc = Except.error e →
          optionWrapperParser innerDec doc = Except.ok none)
      ∧ (∀ (innerDec : String → Except String Nat) (doc e : String),
          innerDec doc = Except.error e →
          customOptionParser innerDec doc = Except.ok none)) := by
  intro h
  have h2 := h.2 (fun _ => Except.error "bad") "x" "bad" rfl
  simp [customOptionParser, Except.map] at h2

/-- **C1, amended.** For a present optional tag with malformed inner content:
the macro-generated wrapper (inner type with a registered custom parser) maps
the failure to `None`, while the fallback `custom_option_parser` (inner type
without one) propagates it as a decode error with the fixed message prefix. -/
theorem claim_C1 :
    (∀ (α : Type) (innerDec : String → Except String α) (doc e : String),
        innerDec doc = Except.error e →
        optionWrapperParser innerDec doc = Except.ok none)
  ∧ (∀ (α : Type) (innerDec : String → Except String α) (doc e : String),
        innerDec doc = Except.error e →
        customOptionParser innerDec doc =
          Except.error ("The XML structure is invalid. Reason: " ++ e)) := by
  constructor <;> intro α innerDec doc e h <;>
    simp [optionWrapperParser, customOptionParser, Except.map, h]

/-- **C1, witness.** The two amended behaviors at the concrete inner decoder
that fails with message `"bad"`. -/
theorem claim_C1_witness :
    optionWrapperParser (fun _ : String => (Except.error "bad" : Except String Nat)) "x"
      = Except.ok none ∧
    customOptionParser (fun _ : String => (Except.error "bad" : Except String Nat)) "x"
      = Except.error ("The XML structure is invalid. Reason: " ++ "bad") :=
  ⟨claim_C1.1 Nat (fun _ => Except.error "bad") "x" "bad" rfl,
   claim_C1.2 Nat (fun _ => Except.error "bad") "x" "bad" rfl⟩

/-- **C2.** Evaluation of the extraction step at the failing input: with root
tag `a` and response text `"</a>x<a>"`, the first `<a>` starts at index 5
while the last `</a>` ends at index 4, so `generate_as_with_retries`
evaluates the Rust slice `&text[5..4]`, which panics — contradicting the
claim that extraction never panics and maps every malformed input to a typed
error. -/
theorem claim_C2 :
    strFind (startTagOf "a") "</a>x<a>" = some 5 ∧
    strRFind (endTagOf "a") "</a>x<a>" = some 0 ∧
    0 + (endTagOf "a").length < 5 ∧
    extractStep "a" "</a>x<a>" = StepResult.panic :=
  ⟨by decide, by decide, by decide, by decide⟩

/-- **C6.** Memoization invariant of the cache slots: starting from an
uninitialized slot, every one of `n` `get_or_init` calls (any interleaving of
the atomic steps, in particular any two calls) returns the same value; once a
slot is initialized, the stored string is never recomputed (zero further
compute-closure runs) nor changed; from an uninitialized slot the compute
closure runs exactly once; and the same holds for the concrete
`Vec<T>::get_prompt_schema` compute closure. -/
theorem claim_C6 :
    (∀ (compute : Unit → String) (n : Nat),
        (runGetOrInit compute n none).1 = List.replicate n (compute ()))
  ∧ (∀ (compute : Unit → String) (n : Nat) (v : String),
        runGetOrInit compute n (some v) = (List.replicate n v, some v, 0))
  ∧ (∀ (compute : Unit → String) (n : Nat),
        (runGetOrInit compute (n + 1) none).2.2 = 1)
  ∧ (∀ (subSchema : String) (n : Nat),
        (runGetOrInit (vecPromptSchemaCompute subSchema) n none).1 =
          List.replicate n (vecPromptSchemaCompute subSchema ())) := by
  have hsome : ∀ (compute : Unit → String) (n : Nat) (v : String),
      runGetOrInit compute n (some v) = (List.replicate n v, some v, 0) := by
    intro compute n
    induction n with
    | zero => intro v; rfl
    | succ n ih =>
        intro v
        simp [runGetOrInit, get_or_init, ih v, List.replicate_succ]
  have hnone : ∀ (compute : Unit → String) (n : Nat),
      (runGetOrInit compute n none).1 = List.replicate n (compute ()) := by
    intro compute n
    cases n with
    | zero => rfl
    | succ n =>
        simp [runGetOrInit, get_or_init, hsome compute n (compute ()),
          List.replicate_succ]
  refine ⟨hnone, hsome, ?_, fun subSchema n => hnone _ n⟩
  intro compute n
  simp [runGetOrInit, get_or_init, hsome compute n (compute ())]

/-- **C10.** The `llm_prompt` macro makes `root_name()` return the empty
string for every enum, so a top-level extraction session for such a type
searches the raw response for the literal tags `<>` and `</>` when locating
the payload boundaries. -/
theorem claim_C10 (n text : String) :
    macro_root_name (ItemKind.enumItem n) = "" ∧
    startTagOf (macro_root_name (ItemKind.enumItem n)) = "<>" ∧
    endTagOf (macro_root_name (ItemKind.enumItem n)) = "</>" ∧
    extractStep (macro_root_name (ItemKind.enumItem n)) text =
      extractWithTags "<>" "</>" text := by
  have h0 : macro_root_name (ItemKind.enumItem n) = "" := rfl
  have h1 : startTagOf (macro_root_name (ItemKind.enumItem n)) = "<>" := by
    rw [h0]; decide
  have h2 : endTagOf (macro_root_name (ItemKind.enumItem n)) = "</>" := by
    rw [h0]; decide
  refine ⟨rfl, h1, h2, ?_⟩
  show extractWithTags (startTagOf (macro_root_name (ItemKind.enumItem n)))
      (endTagOf (macro_root_name (ItemKind.enumItem n))) text = _
  rw [h1, h2]

/-- **C7.** Boolean coercion: after trimming and case-folding, every token of
the true-bucket coerces to `true`, every token of the false-bucket (which
contains the empty string) coerces to `false`, any other token is a coercion
error carrying the cleaned token, with no partial matching; and the buckets
contain at least the tokens the claim lists. -/
theorem claim_C7 :
    (∀ s : String, rustTrimLower s ∈ trueBucket →
        customBoolParser s = Except.ok true)
  ∧ (∀ s : String, rustTrimLower s ∈ falseBucket →
        customBoolParser s = Except.ok false)
  ∧ (∀ s : String, rustTrimLower s ∉ trueBucket → rustTrimLower s ∉ falseBucket →
        customBoolParser s =
          Except.error ("can not parse '" ++ rustTrimLower s ++ "' as a boolean value"))
  ∧ ["true", "1", "yes", "y", "t", "on"] ⊆ trueBucket
  ∧ ["false", "0", "no", "n", "f", "off", "null", "none", ""] ⊆ falseBucket := by
  refine ⟨?_, ?_, ?_, by decide, by decide⟩
  · intro s h
    simp only [trueBucket, List.mem_cons, List.not_mem_nil, or_false] at h
    rcases h with h|h|h|h|h|h|h|h|h <;> simp [customBoolParser, h]
  · intro s h
    simp only [falseBucket, List.mem_cons, List.not_mem_nil, or_false] at h
    rcases h with h|h|h|h|h|h|h|h|h|h <;> simp [customBoolParser, h]
  · intro s h1 h2
    simp only [trueBucket, List.mem_cons, List.not_mem_nil, or_false] at h1
    simp only [falseBucket, List.mem_cons, List.not_mem_nil, or_false] at h2
    simp only [customBoolParser]
    rw [if_neg h1, if_neg h2]

/-- **C7, witness.** The three coercion behaviors at concrete tokens:
`"  YES "` (trimmed, case-folded, true-bucket), `" off"` (false-bucket), and
`"banana"` (neither bucket, coercion error). -/
theorem claim_C7_witness :
    customBoolParser "  YES " = Except.ok true ∧
    customBoolParser " off" = Except.ok false ∧
    customBoolParser "banana" =
      Except.error ("can not parse '" ++ rustTrimLower "banana" ++ "' as a boolean value") :=
  ⟨claim_C7.1 "  YES " (by decide),
   claim_C7.2.1 " off" (by decide),
   claim_C7.2.2.1 "banana" (by decide) (by decide)⟩

/-- **C3, counterexample.** The claim — whenever both the first `<root>`
occurrence and the last `</root>` occurrence exist, the decoder receives
exactly the inclusive slice between them — fails when the first start tag
begins after the last end tag ends: with root `a` and text `"</a>y<a>"` the
boundaries exist (`<a>` at 5, `</a>` at 0) but the attempt panics instead of
producing any payload. -/
theorem claim_C3_counterexample :
    ¬ (∀ (root text : String) (s e0 : Nat),
        strFind (startTagOf root) text = some s →
        strRFind (endTagOf root) text = some e0 →
        extractStep root text =
          StepResult.payload (strSlice text s (e0 + (endTagOf root).length))) := by
  intro h
  have h2 := h "a" "</a>y<a>" 5 0 (by decide) (by decide)
  exact absurd h2 (by decide)

/-- **C3, amended.** (i) Whenever both boundaries exist **and** the first
start-tag index is at most the end of the last end-tag occurrence, the
payload passed to the decoder is exactly the inclusive slice between them
(otherwise the slice panics, see C2).  (ii) When a boundary is missing, the
loop records a structural `XmlExtraction` error and appends exactly two
corrective assistant messages — first the missing-root-tag diagnostic with
the schema, then the valid example — before the next attempt. -/
theorem claim_C3 :
    (∀ (root text : String) (s e0 : Nat),
        strFind (startTagOf root) text = some s →
        strRFind (endTagOf root) text = some e0 →
        s ≤ e0 + (endTagOf root).length →
        extractStep root text =
          StepResult.payload (strSlice text s (e0 + (endTagOf root).length)))
  ∧ (∀ (T : Type) (dec : String → Except String T) (root schema ex : String)
        (send : Nat → SendResult) (i rem : Nat) (chat : List Msg)
        (errs : List GenError) (sends : Nat) (text : String),
        send i = SendResult.reply (some text) →
        extractStep root text = StepResult.missing →
        runAttempts dec root schema ex send i (rem + 1) chat errs sends =
          runAttempts dec root schema ex send (i + 1) rem
            (chat ++ [⟨Role.assistant, structDiagContent root schema⟩,
                      ⟨Role.assistant, exampleMsgContent ex⟩])
            (errs ++ [GenError.xmlExtraction (extractionErrMsg root)])
            (sends + 1)) := by
  constructor
  · intro root text s e0 h1 h2 h3
    simp [extractStep, extractWithTags, h1, h2, h3]
  · intro T dec root schema ex send i rem chat errs sends text h1 h2
    simp [runAttempts, h1, h2]

/-- **C3, witness.** (i) at root `a`, text `"<a>x</a>"` (boundaries 0 and 4,
payload the whole document); (ii) at a one-attempt loop whose reply `"oops"`
contains no root tags. -/
theorem claim_C3_witness :
    extractStep "a" "<a>x</a>" =
      StepResult.payload (strSlice "<a>x</a>" 0 (4 + (endTagOf "a").length)) ∧
    runAttempts (fun _ : String => (Except.error "d" : Except String Nat))
        "a" "S" "E" (fun _ => SendResult.reply (some "oops")) 0 (0 + 1) [] [] 0 =
      runAttempts (fun _ : String => (Except.error "d" : Except String Nat))
        "a" "S" "E" (fun _ => SendResult.reply (some "oops")) (0 + 1) 0
        ([] ++ [⟨Role.assistant, structDiagContent "a" "S"⟩,
                ⟨Role.assistant, exampleMsgContent "E"⟩])
        ([] ++ [GenError.xmlExtraction (extractionErrMsg "a")]) (0 + 1) :=
  ⟨claim_C3.1 "a" "<a>x</a>" 0 4 (by decide) (by decide) (by decide),
   claim_C3.2 Nat (fun _ => Except.error "d") "a" "S" "E"
     (fun _ => SendResult.reply (some "oops")) 0 0 [] [] 0 "oops" rfl (by decide)⟩

/-- Helper: if every one of the `rem` remaining attempts records an error
(text present, extraction or decode failure), the loop exhausts its budget,
returning the accumulated errors in attempt order and performing one send per
attempt. -/
theorem runAttempts_allFail {T : Type} (dec : String → Except String T)
    (root schema ex : String) (send : Nat → SendResult) (f : Nat → GenError) :
    ∀ (rem i : Nat) (chat : List Msg) (errs : List GenError) (sends : Nat),
    (∀ j, j < rem → stepErrorOf dec root (send (i + j)) = some (f (i + j))) →
    (runAttempts dec root schema ex send i rem chat errs sends).outcome
        = GenOutcome.retryLimitExceeded
            (errs ++ (List.range rem).map fun j => f (i + j)) ∧
    (runAttempts dec root schema ex send i rem chat errs sends).sends
        = sends + rem := by
  intro rem
  induction rem with
  | zero => intro i chat errs sends _; simp [runAttempts]
  | succ rem ih =>
    intro i chat errs sends h
    have h0 := h 0 (Nat.succ_pos rem)
    rw [Nat.add_zero] at h0
    have hshift : ∀ j, j < rem →
        stepErrorOf dec root (send ((i + 1) + j)) = some (f ((i + 1) + j)) := by
      intro j hj
      have hsh := h (j + 1) (by omega)
      have harr : i + (j + 1) = (i + 1) + j := by omega
      rwa [harr] at hsh
    have hrange : (List.range (rem + 1)).map (fun j => f (i + j)) =
        f i :: (List.range rem).map (fun j => f ((i + 1) + j)) := by
      rw [List.range_succ_eq_map]
      simp only [List.map_cons, Nat.add_zero, List.map_map]
      congr 1
      apply List.map_congr_left
      intro j _
      simp only [Function.comp_apply]
      congr 1
      omega
    cases hs : send i with
    | transportErr e => simp [stepErrorOf, hs] at h0
    | reply text =>
      cases text with
      | none => simp [stepErrorOf, hs] at h0
      | some t =>
        cases hx : extractStep root t with
        | panic => simp [stepErrorOf, hs, hx] at h0
        | missing =>
          simp only [stepErrorOf, hs, hx, Option.some.injEq] at h0
          rw [runAttempts]
          simp only [hs, hx]
          have hrec := ih (i + 1)
            (chat ++ [⟨Role.assistant, structDiagContent root schema⟩,
                      ⟨Role.assistant, exampleMsgContent ex⟩])
            (errs ++ [GenError.xmlExtraction (extractionErrMsg root)])
            (sends + 1) hshift
          rw [hrec.1, hrec.2] at *
          constructor
          · rw [hrange, ← h0]
            simp
          · omega
        | payload p =>
          cases hd : dec p with
          | ok v => simp [stepErrorOf, hs, hx, hd] at h0
          | error e =>
            simp only [stepErrorOf, hs, hx, hd, Option.some.injEq] at h0
            rw [runAttempts]
            simp only [hs, hx, hd]
            have hrec := ih (i + 1)
              (chat ++ [⟨Role.assistant, decodeDiagContent p e schema⟩,
                        ⟨Role.assistant, exampleMsgContent ex⟩])
              (errs ++ [GenError.xmlDeserialization e])
              (sends + 1) hshift
            rw [hrec.1, hrec.2] at *
            constructor
            · rw [hrange, ← h0]
              simp
            · omega

/-- **C4.** Budget exhaustion: if every one of the `retries` attempts returns
text that fails extraction or decoding (recording error `f i` on attempt
`i`), `generate_as_with_retries` returns `RetryLimitExceeded` carrying
exactly the `retries` recorded errors in attempt order, and performs exactly
`retries` sends, no more. -/
theorem claim_C4 {T : Type} (dec : String → Except String T)
    (root schema ex : String) (send : Nat → SendResult) (prompt : List Msg)
    (retries : Nat) (f : Nat → GenError)
    (h : ∀ i, i < retries → stepErrorOf dec root (send i) = some (f i)) :
    (generate_as_with_retries dec root schema ex send prompt retries).outcome
        = GenOutcome.retryLimitExceeded ((List.range retries).map f) ∧
    (generate_as_with_retries dec root schema ex send prompt retries).sends
        = retries := by
  have h' : ∀ j, j < retries →
      stepErrorOf dec root (send (0 + j)) = some (f (0 + j)) := by
    intro j hj
    rw [Nat.zero_add]
    exact h j hj
  have hall := runAttempts_allFail dec root schema ex send f retries 0
    (prompt ++ [⟨Role.system, sysMsgContent root schema⟩]) [] 0 h'
  rw [generate_as_with_retries]
  constructor
  · rw [hall.1]
    simp [Nat.zero_add]
  · rw [hall.2]
    omega

/-- **C4, witness.** A stub whose reply `"oops"` never contains the root
tags: with a budget of 2 the loop exhausts, returning both structural errors
and performing exactly 2 sends. -/
theorem claim_C4_witness :
    (generate_as_with_retries (fun _ : String => (Except.error "bad" : Except String Nat))
        "a" "S" "E" (fun _ => SendResult.reply (some "oops")) [] 2).outcome
      = GenOutcome.retryLimitExceeded
          ((List.range 2).map fun _ => GenError.xmlExtraction (extractionErrMsg "a")) ∧
    (generate_as_with_retries (fun _ : String => (Except.error "bad" : Except String Nat))
        "a" "S" "E" (fun _ => SendResult.reply (some "oops")) [] 2).sends = 2 :=
  claim_C4 (fun _ => Except.error "bad") "a" "S" "E"
    (fun _ => SendResult.reply (some "oops")) [] 2
    (fun _ => GenError.xmlExtraction (extractionErrMsg "a"))
    (fun _ _ => rfl)

/-- Helper: if the first `m` remaining attempts all yield a payload whose
decode fails, and attempt `m` (0-based, within budget) yields a payload that
decodes to `v`, the loop returns `v`, appends exactly the `m` corrective
message pairs (diagnostic then example) for the failed attempts, and performs
`m + 1` sends. -/
theorem runAttempts_converge {T : Type} (dec : String → Except String T)
    (root schema ex : String) (send : Nat → SendResult)
    (t p : Nat → String) (e : Nat → String) (v : T) :
    ∀ (m i rem : Nat) (chat : List Msg) (errs : List GenError) (sends : Nat),
    (∀ j, j < m → send (i + j) = SendResult.reply (some (t (i + j))) ∧
        extractStep root (t (i + j)) = StepResult.payload (p (i + j)) ∧
        dec (p (i + j)) = Except.error (e (i + j))) →
    send (i + m) = SendResult.reply (some (t (i + m))) →
    extractStep root (t (i + m)) = StepResult.payload (p (i + m)) →
    dec (p (i + m)) = Except.ok v →
    m < rem →
    runAttempts dec root schema ex send i rem chat errs sends =
      ⟨GenOutcome.ok v,
       chat ++ ((List.range m).map fun j =>
         [⟨Role.assistant, decodeDiagContent (p (i + j)) (e (i + j)) schema⟩,
          ⟨Role.assistant, exampleMsgContent ex⟩]).flatten,
       sends + m + 1⟩ := by
  intro m
  induction m with
  | zero =>
    intro i rem chat errs sends _ hs hx hd hrem
    obtain ⟨rem', rfl⟩ : ∃ rem', rem = rem' + 1 := ⟨rem - 1, by omega⟩
    rw [Nat.add_zero] at hs hx hd
    rw [runAttempts]
    simp [hs, hx, hd]
  | succ m ih =>
    intro i rem chat errs sends hfail hs hx hd hrem
    obtain ⟨rem', rfl⟩ : ∃ rem', rem = rem' + 1 := ⟨rem - 1, by omega⟩
    have h0 := hfail 0 (Nat.succ_pos m)
    rw [Nat.add_zero] at h0
    have hshift : ∀ j, j < m →
        send ((i + 1) + j) = SendResult.reply (some (t ((i + 1) + j))) ∧
        extractStep root (t ((i + 1) + j)) = StepResult.payload (p ((i + 1) + j)) ∧
        dec (p ((i + 1) + j)) = Except.error (e ((i + 1) + j)) := by
      intro j hj
      have hsh := hfail (j + 1) (by omega)
      have harr : i + (j + 1) = (i + 1) + j := by omega
      rwa [harr] at hsh
    have harr2 : i + (m + 1) = (i + 1) + m := by omega
    rw [harr2] at hs hx hd
    rw [runAttempts]
    simp only [h0.1, h0.2.1, h0.2.2]
    rw [ih (i + 1) rem' _ _ _ hshift hs hx hd (by omega)]
    have hrange : ((List.range (m + 1)).map fun j =>
        [(⟨Role.assistant, decodeDiagContent (p (i + j)) (e (i + j)) schema⟩ : Msg),
         ⟨Role.assistant, exampleMsgContent ex⟩]).flatten =
      [(⟨Role.assistant, decodeDiagContent (p i) (e i) schema⟩ : Msg),
       ⟨Role.assistant, exampleMsgContent ex⟩] ++
      ((List.range m).map fun j =>
        [(⟨Role.assistant, decodeDiagContent (p ((i + 1) + j)) (e ((i + 1) + j)) schema⟩ : Msg),
         ⟨Role.assistant, exampleMsgContent ex⟩]).flatten := by
      rw [List.range_succ_eq_map]
      simp only [List.map_cons, Nat.add_zero, List.map_map, List.flatten_cons]
      congr 2
      apply List.map_congr_left
      intro j _
      simp only [Function.comp_apply]
      have harr3 : i + (j + 1) = (i + 1) + j := by omega
      rw [harr3]
    rw [hrange]
    congr 1
    · simp
    · omega

/-- **C5.** Retry convergence: if decoding fails on the first `k` attempts
(payload `p j`, error `e j`) and succeeds with `v` on attempt `k + 1`
(within budget), `generate_as_with_retries` returns the decoded value
immediately (exactly `k + 1` sends, no further attempts), and the final
conversation is the initial one followed by exactly `2 k` corrective
messages, a (diagnostic, example) pair per failed attempt in attempt
order. -/
theorem claim_C5 {T : Type} (dec : String → Except String T)
    (root schema ex : String) (send : Nat → SendResult) (prompt : List Msg)
    (retries k : Nat) (t p : Nat → String) (e : Nat → String) (v : T)
    (hfail : ∀ j, j < k → send j = SendResult.reply (some (t j)) ∧
        extractStep root (t j) = StepResult.payload (p j) ∧
        dec (p j) = Except.error (e j))
    (hs : send k = SendResult.reply (some (t k)))
    (hx : extractStep root (t k) = StepResult.payload (p k))
    (hd : dec (p k) = Except.ok v)
    (hk : k < retries) :
    generate_as_with_retries dec root schema ex send prompt retries =
      ⟨GenOutcome.ok v,
       (prompt ++ [⟨Role.system, sysMsgContent root schema⟩]) ++
         ((List.range k).map fun j =>
           [⟨Role.assistant, decodeDiagContent (p j) (e j) schema⟩,
            ⟨Role.assistant, exampleMsgContent ex⟩]).flatten,
       k + 1⟩ := by
  have hfail' : ∀ j, j < k → send (0 + j) = SendResult.reply (some (t (0 + j))) ∧
      extractStep root (t (0 + j)) = StepResult.payload (p (0 + j)) ∧
      dec (p (0 + j)) = Except.error (e (0 + j)) := by
    intro j hj
    rw [Nat.zero_add]
    exact hfail j hj
  have hconv := runAttempts_converge dec root schema ex send t p e v k 0 retries
    (prompt ++ [⟨Role.system, sysMsgContent root schema⟩]) [] 0 hfail'
    (by rwa [Nat.zero_add]) (by rwa [Nat.zero_add]) (by rwa [Nat.zero_add]) hk
  rw [generate_as_with_retries, hconv]
  simp only [Nat.zero_add]

/-- **C5, witness.** With root `a`, a reply `"<a>b</a>"` whose payload fails
to decode on attempt 0 and a reply `"<a>g</a>"` that decodes to `7` on
attempt 1 (budget 2): the loop returns `7`, the conversation gains exactly
one (diagnostic, example) pair, and 2 sends are performed. -/
theorem claim_C5_witness :
    generate_as_with_retries
        (fun s : String => if s = "<a>g</a>" then Except.ok (7 : Nat) else Except.error "bad")
        "a" "S" "E"
        (fun n => SendResult.reply (some (if n = 0 then "<a>b</a>" else "<a>g</a>")))
        [] 2 =
      ⟨GenOutcome.ok 7,
       ([] ++ [⟨Role.system, sysMsgContent "a" "S"⟩]) ++
         ((List.range 1).map fun j =>
           [⟨Role.assistant,
             decodeDiagContent (if j = 0 then "<a>b</a>" else "<a>g</a>") "bad" "S"⟩,
            ⟨Role.assistant, exampleMsgContent "E"⟩]).flatten,
       1 + 1⟩ :=
  claim_C5 (fun s => if s = "<a>g</a>" then Except.ok 7 else Except.error "bad")
    "a" "S" "E"
    (fun n => SendResult.reply (some (if n = 0 then "<a>b</a>" else "<a>g</a>")))
    [] 2 1
    (fun n => if n = 0 then "<a>b</a>" else "<a>g</a>")
    (fun n => if n = 0 then "<a>b</a>" else "<a>g</a>")
    (fun _ => "bad") 7
    (fun j hj => by
      have hj0 : j = 0 := by omega
      subst hj0
      exact ⟨rfl, rfl, rfl⟩)
    rfl rfl rfl (by omega)

/-- **C8, counterexample.** The claim — a document with zero item-wrapper
tags decodes to the empty sequence and is never an error — fails because
`XmlSeq` is `deny_unknown_fields`: a document whose only child is the
unknown tag `<foo>` has zero `item` tags yet the decode errors. -/
theorem claim_C8_counterexample :
    ¬ (∀ (dec : String → Except String Nat) (children : List (String × String)),
        (∀ c ∈ children, c.1 ≠ "item") →
        customVectorParser dec children = Except.ok []) := by
  intro h
  have h2 := h (fun _ => Except.ok 0) [("foo", "")] (by simp)
  simp [customVectorParser, decodeXmlSeq] at h2

/-- **C8, amended.** (i) A document with **no children** decodes to the empty
sequence, never an error; (ii) `N` well-formed item tags decode to a sequence
of length `N` whose elements appear in document order; (iii) a single
present-but-malformed item makes the decode of the whole sequence fail (no
leniency), with the fixed diagnostic prefix; (iv) an unknown (non-`item`)
child tag also fails the whole decode (`deny_unknown_fields`). -/
theorem claim_C8 :
    (∀ (R α : Type) (dec : R → Except String α),
        customVectorParser dec ([] : List (String × R)) = Except.ok [])
  ∧ (∀ (R α : Type) (dec : R → Except String α) (rs : List R) (vs : List α),
        List.Forall₂ (fun r v => dec r = Except.ok v) rs vs →
        customVectorParser dec (rs.map fun r => ("item", r)) = Except.ok vs)
  ∧ (∀ (R α : Type) (dec : R → Except String α) (pre : List R) (vs : List α)
        (r : R) (post : List (String × R)) (e : String),
        List.Forall₂ (fun r v => dec r = Except.ok v) pre vs →
        dec r = Except.error e →
        customVectorParser dec ((pre.map fun x => ("item", x)) ++ ("item", r) :: post) =
          Except.error
            ("The XML structure is invalid. It must be a sequence of <item> elements, each containing the value. Details: "
              ++ e))
  ∧ (∀ (R α : Type) (dec : R → Except String α) (tag : String) (raw : R)
        (rest : List (String × R)),
        tag ≠ "item" →
        customVectorParser dec ((tag, raw) :: rest) =
          Except.error
            ("The XML structure is invalid. It must be a sequence of <item> elements, each containing the value. Details: "
              ++ ("unknown field `" ++ tag ++ "`"))) := by
  have hseq : ∀ (R α : Type) (dec : R → Except String α) (rs : List R) (vs : List α),
      List.Forall₂ (fun r v => dec r = Except.ok v) rs vs →
      decodeXmlSeq dec (rs.map fun r => ("item", r)) = Except.ok vs := by
    intro R α dec rs vs h
    induction h with
    | nil => rfl
    | cons hd _ ih =>
        simp [decodeXmlSeq, hd, ih, Except.map]
  have hfailseq : ∀ (R α : Type) (dec : R → Except String α) (pre : List R) (vs : List α)
      (r : R) (post : List (String × R)) (e : String),
      List.Forall₂ (fun r v => dec r = Except.ok v) pre vs →
      dec r = Except.error e →
      decodeXmlSeq dec ((pre.map fun x => ("item", x)) ++ ("item", r) :: post) =
        Except.error e := by
    intro R α dec pre vs r post e hpre herr
    induction hpre with
    | nil => simp [decodeXmlSeq, herr]
    | cons hd _ ih =>
        simp [decodeXmlSeq, hd, ih, Except.map]
  refine ⟨?_, ?_, ?_, ?_⟩
  · intro R α dec
    rfl
  · intro R α dec rs vs h
    simp [customVectorParser, hseq R α dec rs vs h]
  · intro R α dec pre vs r post e hpre herr
    simp [customVectorParser, hfailseq R α dec pre vs r post e hpre herr]
  · intro R α dec tag raw rest htag
    simp [customVectorParser, decodeXmlSeq, htag]

/-- **C8, witness.** With the inner decoder mapping `"bad"` to an error and
any other string to its length: two items decode in document order, a
malformed second item fails the whole sequence, and an unknown `<foo>` child
fails the whole sequence. -/
theorem claim_C8_witness :
    customVectorParser
        (fun s : String => if s = "bad" then Except.error "nope" else Except.ok s.length)
        [("item", "a"), ("item", "bb")] = Except.ok [1, 2] ∧
    customVectorParser
        (fun s : String => if s = "bad" then Except.error "nope" else Except.ok s.length)
        [("item", "a"), ("item", "bad")] =
      Except.error
        ("The XML structure is invalid. It must be a sequence of <item> elements, each containing the value. Details: "
          ++ "nope") ∧
    customVectorParser
        (fun s : String => if s = "bad" then Except.error "nope" else Except.ok s.length)
        [("foo", "a")] =
      Except.error
        ("The XML structure is invalid. It must be a sequence of <item> elements, each containing the value. Details: "
          ++ ("unknown field `" ++ "foo" ++ "`")) :=
  ⟨claim_C8.2.1 String Nat _ ["a", "bb"] [1, 2]
     (List.Forall₂.cons rfl (List.Forall₂.cons rfl List.Forall₂.nil)),
   claim_C8.2.2.1 String Nat _ ["a"] [1] "bad" [] "nope"
     (List.Forall₂.cons rfl List.Forall₂.nil) rfl,
   claim_C8.2.2.2 String Nat _ "foo" "a" [] (by decide)⟩

/-- Helper: looking up `k` after additionally inserting `q` sees `q`'s value
exactly when `q`'s key is `k` (later inserts overwrite). -/
theorem lookupLW_append_single {κ ν : Type} [DecidableEq κ]
    (l : List (κ × ν)) (q : κ × ν) (k : κ) :
    lookupLW (l ++ [q]) k = if q.1 = k then some q.2 else lookupLW l k := by
  simp [lookupLW, List.foldl_append]

/-- Helper: a key is absent from the collected map iff no entry carries it. -/
theorem lookupLW_eq_none_iff {κ ν : Type} [DecidableEq κ]
    (l : List (κ × ν)) (k : κ) :
    lookupLW l k = none ↔ k ∉ l.map Prod.fst := by
  induction l using List.reverseRecOn with
  | nil => simp [lookupLW]
  | append_singleton l q ih =>
      rw [lookupLW_append_single]
      by_cases hq : q.1 = k
      · simp [hq]
      · simp [hq, ih, Ne.symm hq]

/-- Helper: a value found in the collected map comes from some entry. -/
theorem mem_of_lookupLW_eq_some {κ ν : Type} [DecidableEq κ]
    (l : List (κ × ν)) (k : κ) (v : ν) (h : lookupLW l k = some v) :
    (k, v) ∈ l := by
  induction l using List.reverseRecOn with
  | nil => simp [lookupLW] at h
  | append_singleton l q ih =>
      rw [lookupLW_append_single] at h
      by_cases hq : q.1 = k
      · rw [if_pos hq] at h
        obtain ⟨q1, q2⟩ := q
        injection h with h2
        subst h2
        subst hq
        simp
      · rw [if_neg hq] at h
        exact List.mem_append.mpr (Or.inl (ih h))

/-- Helper: with pairwise-distinct keys, every entry is found in the
collected map. -/
theorem lookupLW_eq_some_of_mem {κ ν : Type} [DecidableEq κ]
    (l : List (κ × ν)) (k : κ) (v : ν) (hmem : (k, v) ∈ l)
    (hnd : (l.map Prod.fst).Nodup) :
    lookupLW l k = some v := by
  induction l using List.reverseRecOn with
  | nil => simp at hmem
  | append_singleton l q ih =>
      rw [List.map_append, List.nodup_append] at hnd
      rw [lookupLW_append_single]
      rcases List.mem_append.mp hmem with hl | hq
      · have hkl : k ∈ l.map Prod.fst := List.mem_map.mpr ⟨(k, v), hl, rfl⟩
        have hq1 : q.1 ∉ l.map Prod.fst := fun hc => hnd.2.2 hc (by simp)
        have hne : q.1 ≠ k := fun he => hq1 (he ▸ hkl)
        rw [if_neg hne]
        exact ih hl hnd.1
      · obtain ⟨q1, q2⟩ := q
        simp at hq
        simp [hq.1, hq.2]

/-- Helper: with pairwise-distinct keys, the collected map is invariant under
permutation of the entry list. -/
theorem lookupLW_perm {κ ν : Type} [DecidableEq κ]
    (l₁ l₂ : List (κ × ν)) (hperm : l₁.Perm l₂)
    (hnd : (l₁.map Prod.fst).Nodup) :
    lookupLW l₁ = lookupLW l₂ := by
  funext k
  have hnd₂ : (l₂.map Prod.fst).Nodup := ((hperm.map Prod.fst).nodup_iff).mp hnd
  cases h : lookupLW l₁ k with
  | none =>
      have hk := (lookupLW_eq_none_iff l₁ k).mp h
      have hk₂ : k ∉ l₂.map Prod.fst := fun hc =>
        hk ((hperm.map Prod.fst).mem_iff.mpr hc)
      exact ((lookupLW_eq_none_iff l₂ k).mpr hk₂).symm
  | some v =>
      have hmem := mem_of_lookupLW_eq_some l₁ k v h
      have hmem₂ : (k, v) ∈ l₂ := hperm.mem_iff.mp hmem
      exact (lookupLW_eq_some_of_mem l₂ k v hmem₂ hnd₂).symm

/-- Helper: when every raw entry decodes, the decoded entry list keeps the
document order. -/
theorem decodeEntries_ok {R κ ν : Type} (decK : R → Except String κ)
    (decV : R → Except String ν) (fk : R → κ) (fv : R → ν) :
    ∀ (entries : List (R × R)),
    (∀ q ∈ entries, decK q.1 = Except.ok (fk q.1) ∧ decV q.2 = Except.ok (fv q.2)) →
    decodeEntries decK decV entries =
      Except.ok (entries.map fun q => (fk q.1, fv q.2)) := by
  intro entries h
  induction entries with
  | nil => rfl
  | cons q rest ih =>
      have hq := h q (List.mem_cons_self q rest)
      obtain ⟨q1, q2⟩ := q
      simp [decodeEntries, hq.1, hq.2,
        ih (fun x hx => h x (List.mem_cons_of_mem _ hx)), Except.map]

/-- **C9.** Map decoding: (i) with pairwise-distinct keys, two documents
whose entry lists are permutations of each other decode (for both the
`HashMap` and the `BTreeMap` parser) to the same mapping — order
independence; (ii) zero entries decode to the empty mapping; (iii) when an
earlier and a final entry share a key, the collected mapping holds the later
entry's value — last write wins. -/
theorem claim_C9 :
    (∀ (R κ ν : Type) [DecidableEq κ] (decK : R → Except String κ)
        (decV : R → Except String ν) (fk : R → κ) (fv : R → ν)
        (e₁ e₂ : List (R × R)),
        (∀ q ∈ e₁, decK q.1 = Except.ok (fk q.1) ∧ decV q.2 = Except.ok (fv q.2)) →
        e₁.Perm e₂ →
        (e₁.map fun q => fk q.1).Nodup →
        ∃ m, customHashmapParser decK decV e₁ = Except.ok m ∧
             customHashmapParser decK decV e₂ = Except.ok m ∧
             customBtreemapParser decK decV e₁ = Except.ok m ∧
             customBtreemapParser decK decV e₂ = Except.ok m)
  ∧ (∀ (R κ ν : Type) [DecidableEq κ] (decK : R → Except String κ)
        (decV : R → Except String ν),
        customHashmapParser decK decV ([] : List (R × R)) =
          Except.ok (fun _ => none) ∧
        customBtreemapParser decK decV ([] : List (R × R)) =
          Except.ok (fun _ => none))
  ∧ (∀ (R κ ν : Type) [DecidableEq κ] (decK : R → Except String κ)
        (decV : R → Except String ν) (fk : R → κ) (fv : R → ν)
        (e₀ e₁ : List (R × R)) (a b : R × R),
        (∀ q ∈ e₀ ++ [a] ++ e₁ ++ [b],
            decK q.1 = Except.ok (fk q.1) ∧ decV q.2 = Except.ok (fv q.2)) →
        fk a.1 = fk b.1 →
        ∃ m, customHashmapParser decK decV (e₀ ++ [a] ++ e₁ ++ [b]) =
                Except.ok m ∧
             customBtreemapParser decK decV (e₀ ++ [a] ++ e₁ ++ [b]) =
                Except.ok m ∧
             m (fk b.1) = some (fv b.2)) := by
  refine ⟨?_, ?_, ?_⟩
  · intro R κ ν inst decK decV fk fv e₁ e₂ hall hperm hnd
    have hall₂ : ∀ q ∈ e₂, decK q.1 = Except.ok (fk q.1) ∧
        decV q.2 = Except.ok (fv q.2) :=
      fun q hq => hall q (hperm.mem_iff.mpr hq)
    have hd₁ := decodeEntries_ok decK decV fk fv e₁ hall
    have hd₂ := decodeEntries_ok decK decV fk fv e₂ hall₂
    have hndg : ((e₁.map fun q => (fk q.1, fv q.2)).map Prod.fst).Nodup := by
      rw [List.map_map]
      exact hnd
    have hpermg : (e₁.map fun q => (fk q.1, fv q.2)).Perm
        (e₂.map fun q => (fk q.1, fv q.2)) := hperm.map _
    have heq := lookupLW_perm _ _ hpermg hndg
    refine ⟨lookupLW (e₁.map fun q => (fk q.1, fv q.2)), ?_, ?_, ?_, ?_⟩ <;>
      simp [customHashmapParser, customBtreemapParser, hd₁, hd₂, heq]
  · intro R κ ν inst decK decV
    constructor <;>
      · refine congrArg Except.ok ?_
        funext k
        rfl
  · intro R κ ν inst decK decV fk fv e₀ e₁ a b hall hshare
    have hd := decodeEntries_ok decK decV fk fv (e₀ ++ [a] ++ e₁ ++ [b]) hall
    refine ⟨lookupLW ((e₀ ++ [a] ++ e₁ ++ [b]).map fun q => (fk q.1, fv q.2)),
      ?_, ?_, ?_⟩
    · simp only [customHashmapParser]
      rw [hd]
    · simp only [customBtreemapParser]
      rw [hd]
    · rw [show (e₀ ++ [a] ++ e₁ ++ [b]).map (fun q => (fk q.1, fv q.2)) =
          ((e₀ ++ [a] ++ e₁).map fun q => (fk q.1, fv q.2)) ++ [(fk b.1, fv b.2)]
        from by simp]
      rw [lookupLW_append_single]
      simp

/-- **C9, witness.** With identity decoders over string entries:
`[(a,1),(b,2)]` and its permutation `[(b,2),(a,1)]` decode to the same map
(both parsers); the empty entry list decodes to the empty map; and in
`[(k,1),(k,2)]` the later value `2` wins. -/
theorem claim_C9_witness :
    (∃ m, customHashmapParser (fun s : String => Except.ok s)
            (fun s : String => Except.ok s) [("a", "1"), ("b", "2")] = Except.ok m ∧
          customHashmapParser (fun s : String => Except.ok s)
            (fun s : String => Except.ok s) [("b", "2"), ("a", "1")] = Except.ok m ∧
          customBtreemapParser (fun s : String => Except.ok s)
            (fun s : String => Except.ok s) [("a", "1"), ("b", "2")] = Except.ok m ∧
          customBtreemapParser (fun s : String => Except.ok s)
            (fun s : String => Except.ok s) [("b", "2"), ("a", "1")] = Except.ok m) ∧
    (customHashmapParser (fun s : String => Except.ok s)
        (fun s : String => Except.ok s) ([] : List (String × String)) =
      Except.ok (fun _ => none)) ∧
    (∃ m, customHashmapParser (fun s : String => Except.ok s)
            (fun s : String => Except.ok s)
            ([] ++ [("k", "1")] ++ [] ++ [("k", "2")]) = Except.ok m ∧
          customBtreemapParser (fun s : String => Except.ok s)
            (fun s : String => Except.ok s)
            ([] ++ [("k", "1")] ++ [] ++ [("k", "2")]) = Except.ok m ∧
          m (id "k") = some (id "2")) :=
  ⟨claim_C9.1 String String String (fun s => Except.ok s) (fun s => Except.ok s)
     id id [("a", "1"), ("b", "2")] [("b", "2"), ("a", "1")]
     (by simp) (List.Perm.swap ("b", "2") ("a", "1") []) (by decide),
   (claim_C9.2.1 String String String (fun s => Except.ok s)
     (fun s => Except.ok s)).1,
   claim_C9.2.2 String String String (fun s => Except.ok s) (fun s => Except.ok s)
     id id [] [] ("k", "1") ("k", "2") (by simp) rfl⟩

end LlmXmlCaster
